import Mathlib

/-!
Verification of the ACL core of pumpkin-py (`src/pie/acl/__init__.py`):
the level resolver `map_member_to_ACLevel` and the permission evaluator
`acl2_function`, shallowly embedded over an abstract read-only store of
role-level mappings, command default levels and user/channel/role
overwrites.
-/

namespace PieACL

/-- Modelled from the spec: the ordered `ACLevel` enumeration lives in
`pie.acl.database`, which is not part of the source under inspection.
The spec gives a totally ordered scale (low to high), with `GUILD_OWNER`
and `BOT_OWNER` as identity-mapped sentinels above the assignable
levels; the concrete assignable tiers here follow the names the spec
uses (`EVERYONE`, `MEMBER`, `VIP`, `SUBMOD`, `MOD`). -/
inductive ACLevel where
  | EVERYONE
  | MEMBER
  | VIP
  | SUBMOD
  | MOD
  | GUILD_OWNER
  | BOT_OWNER
deriving DecidableEq, Repr

/-- Rank of a level on the ordered scale; comparisons are by rank. -/
def ACLevel.toNat : ACLevel → Nat
  | .EVERYONE => 0
  | .MEMBER => 1
  | .VIP => 2
  | .SUBMOD => 3
  | .MOD => 4
  | .GUILD_OWNER => 5
  | .BOT_OWNER => 6

instance : LE ACLevel := ⟨fun a b => a.toNat ≤ b.toNat⟩

instance (a b : ACLevel) : Decidable (a ≤ b) :=
  inferInstanceAs (Decidable (a.toNat ≤ b.toNat))

/-- A guild-scoped actor: `discord.Member`, restricted to the fields the
ACL code reads (`member.id` and the ordered list `member.roles`, kept
here as role ids in the order the list carries them). -/
structure Member where
  id : Nat
  roles : List Nat
deriving DecidableEq, Repr

/-- A guild: `ctx.guild` / `member.guild`, restricted to the fields read
by the ACL code (`guild.id` and `guild.owner.id`). -/
structure Guild where
  id : Nat
  ownerId : Nat
deriving DecidableEq, Repr

/-- Modelled from the spec: the read-only data-access layer
(`pie.acl.database`, not part of the source under inspection), as the
point-lookup interfaces of spec section 6.  `roleLevelMapping` is
`ACLevelMappping.get` (returning the entry's `.level`), `commandDefault`
is `ACDefault.get`, and the three overwrite lookups return the entry's
`allow` flag. -/
structure Store where
  roleLevelMapping : Nat → Nat → Option ACLevel
  commandDefault : Nat → String → Option ACLevel
  userOverwrite : Nat → Nat → String → Option Bool
  channelOverwrite : Nat → Nat → String → Option Bool
  roleOverwrite : Nat → Nat → String → Option Bool

/-- The invocation context `commands.Context`, restricted to the fields
`acl2_function` reads: the bot's owner-id set (`ctx.bot.owner_ids`), the
optional guild, the author, the channel id and the invoked command's
qualified name. -/
structure Ctx where
  botOwnerIds : List Nat
  guild : Option Guild
  author : Member
  channelId : Nat
  command : String

/-- The `for` loop over `member.roles[::-1]` in `map_member_to_ACLevel`:
starting from `EVERYONE`, the first role (of the list given, already
reversed by the caller) with an `ACLevelMappping` entry decides. -/
def mapRolesToLevel (store : Store) (guildId : Nat) : List Nat → ACLevel
  | [] => ACLevel.EVERYONE
  | r :: rs =>
    match store.roleLevelMapping guildId r with
    | some lvl => lvl
    | none => mapRolesToLevel store guildId rs

/-- `map_member_to_ACLevel` from `src/pie/acl/__init__.py`: bot owners
map to `BOT_OWNER`, otherwise the guild owner maps to `GUILD_OWNER`,
otherwise the member's roles are scanned in reverse list order for the
first `ACLevelMappping` entry, defaulting to `EVERYONE`.  The source
reads the guild through `member.guild`; here it is passed alongside. -/
def map_member_to_ACLevel (store : Store) (botOwnerIds : List Nat)
    (guild : Guild) (member : Member) : ACLevel :=
  if member.id ∈ botOwnerIds then ACLevel.BOT_OWNER
  else if member.id = guild.ownerId then ACLevel.GUILD_OWNER
  else mapRolesToLevel store guild.id member.roles.reverse

/-- The evaluation outcome: `acl2_function` either returns `True`
(`Allowed`) or raises one of the four typed ACL exceptions from
`pie.exceptions`, each carried here as a variant with the data the
source attaches to it. -/
inductive Decision where
  | Allowed
  | NegativeUserOverwrite
  | NegativeChannelOverwrite (channelId : Nat)
  | NegativeRoleOverwrite (roleId : Nat)
  | InsufficientACLevel (required actual : ACLevel)
deriving DecidableEq, Repr

/-- The `for role in ctx.author.roles` loop of `acl2_function`: roles in
natural list order, the first one with a `RoleOverwrite` entry decides
(`allow` gives `Allowed`, deny raises `NegativeRoleOverwrite(role)`);
`none` means the loop fell through. -/
def roleOverwriteScan (store : Store) (guildId : Nat) (command : String) :
    List Nat → Option Decision
  | [] => none
  | r :: rs =>
    match store.roleOverwrite guildId r command with
    | some allow =>
      some (if allow then Decision.Allowed else Decision.NegativeRoleOverwrite r)
    | none => roleOverwriteScan store guildId command rs

/-- `acl2_function` from `src/pie/acl/__init__.py`: DM contexts are
allowed; bot owners are allowed; `ACDefault` substitutes the required
level; then user overwrite, channel overwrite, role overwrites (natural
order) each short-circuit; finally `member_level >= level` decides. -/
def acl2_function (store : Store) (ctx : Ctx) (level : ACLevel)
    (for_command : Option String) : Decision :=
  let command : String :=
    match for_command with
    | some c => c
    | none => ctx.command
  match ctx.guild with
  | none => Decision.Allowed
  | some guild =>
    let member_level := map_member_to_ACLevel store ctx.botOwnerIds guild ctx.author
    if member_level = ACLevel.BOT_OWNER then Decision.Allowed
    else
      let level :=
        match store.commandDefault guild.id command with
        | some custom => custom
        | none => level
      match store.userOverwrite guild.id ctx.author.id command with
      | some allow =>
        if allow then Decision.Allowed else Decision.NegativeUserOverwrite
      | none =>
        match store.channelOverwrite guild.id ctx.channelId command with
        | some allow =>
          if allow then Decision.Allowed
          else Decision.NegativeChannelOverwrite ctx.channelId
        | none =>
          match roleOverwriteScan store guild.id command ctx.author.roles with
          | some d => d
          | none =>
            if level ≤ member_level then Decision.Allowed
            else Decision.InsufficientACLevel level member_level

/-- The level actually compared against (spec: "effective level"): the
guild's `ACDefault` entry for the command when present, else the level
the command was declared with. -/
def effectiveLevel (store : Store) (guildId : Nat) (command : String)
    (declared : ACLevel) : ACLevel :=
  match store.commandDefault guildId command with
  | some custom => custom
  | none => declared

/-- Modelled from the spec: the database layer never role-maps the two
identity-only sentinels (`BOT_OWNER`, `GUILD_OWNER`); they are "never
role-mapped, only identity-mapped". -/
def Store.WF (store : Store) : Prop :=
  ∀ g r, store.roleLevelMapping g r ≠ some ACLevel.BOT_OWNER ∧
    store.roleLevelMapping g r ≠ some ACLevel.GUILD_OWNER

/-- Modelled from the spec: the TTL of the `ring.lru(expire=10)` memoization
on `map_member_to_ACLevel` (the `ring` library is an external collaborator,
not part of the source under inspection) — 10 time-units. -/
def levelCacheTTL : Nat := 10

/-- Modelled from the spec: the process-wide memoization cache, keyed on
the composite of actor id and guild id, holding the cached level and the
time it was stored. -/
abbrev LevelCache := List ((Nat × Nat) × (ACLevel × Nat))

/-- Point lookup in the memoization cache. -/
def cacheLookup : LevelCache → (Nat × Nat) → Option (ACLevel × Nat)
  | [], _ => none
  | (k, v) :: rest, key => if k = key then some v else cacheLookup rest key

/-- Modelled from the spec: `map_member_to_ACLevel` behind its TTL cache.
A fresh-enough cached entry (stored less than `levelCacheTTL` time-units
ago) is served as-is; otherwise the level is recomputed and stored at the
current time. -/
def map_member_to_ACLevel_cached (store : Store) (botOwnerIds : List Nat)
    (guild : Guild) (member : Member) (now : Nat) (cache : LevelCache) :
    ACLevel × LevelCache :=
  match cacheLookup cache (member.id, guild.id) with
  | some (v, storedAt) =>
    if now < storedAt + levelCacheTTL then (v, cache)
    else
      let v := map_member_to_ACLevel store botOwnerIds guild member
      (v, ((member.id, guild.id), (v, now)) :: cache)
  | none =>
    let v := map_member_to_ACLevel store botOwnerIds guild member
    (v, ((member.id, guild.id), (v, now)) :: cache)

/-! ## Helper lemmas -/

/-- A bot owner resolves to `BOT_OWNER`. -/
theorem map_member_to_ACLevel_of_bot_owner (store : Store) (b : List Nat)
    (g : Guild) (m : Member) (h : m.id ∈ b) :
    map_member_to_ACLevel store b g m = ACLevel.BOT_OWNER := by
  simp [map_member_to_ACLevel, h]

/-- The role scan never yields an identity-only sentinel on a well-formed
store. -/
theorem mapRolesToLevel_ne_owner (store : Store) (hWF : store.WF)
    (gid : Nat) (rs : List Nat) :
    mapRolesToLevel store gid rs ≠ ACLevel.BOT_OWNER ∧
    mapRolesToLevel store gid rs ≠ ACLevel.GUILD_OWNER := by
  induction rs with
  | nil => simp [mapRolesToLevel]
  | cons r rs ih =>
    simp only [mapRolesToLevel]
    cases h : store.roleLevelMapping gid r with
    | none => exact ih
    | some lvl =>
      have h1 := (hWF gid r).1
      have h2 := (hWF gid r).2
      rw [h] at h1 h2
      exact ⟨fun he => h1 (congrArg some he), fun he => h2 (congrArg some he)⟩

/-- On a well-formed store, an actor outside the bot-owner set never
resolves to `BOT_OWNER`. -/
theorem map_member_to_ACLevel_ne_bot_owner (store : Store) (hWF : store.WF)
    (b : List Nat) (g : Guild) (m : Member) (hb : m.id ∉ b) :
    map_member_to_ACLevel store b g m ≠ ACLevel.BOT_OWNER := by
  unfold map_member_to_ACLevel
  rw [if_neg hb]
  by_cases ho : m.id = g.ownerId
  · rw [if_pos ho]; decide
  · rw [if_neg ho]; exact (mapRolesToLevel_ne_owner store hWF g.id _).1

/-- The role scan returns the mapping of the first mapped role of the
list it is given. -/
theorem mapRolesToLevel_append (store : Store) (gid : Nat)
    (front : List Nat) (r : Nat) (back : List Nat) (lvl : ACLevel)
    (hfront : ∀ x ∈ front, store.roleLevelMapping gid x = none)
    (hr : store.roleLevelMapping gid r = some lvl) :
    mapRolesToLevel store gid (front ++ r :: back) = lvl := by
  induction front with
  | nil => simp [mapRolesToLevel, hr]
  | cons x xs ih =>
    have hx : store.roleLevelMapping gid x = none := hfront x (by simp)
    simp only [List.cons_append, mapRolesToLevel, hx]
    exact ih (fun y hy => hfront y (by simp [hy]))

/-- The role scan falls through to `EVERYONE` when no role of the list is
mapped. -/
theorem mapRolesToLevel_eq_everyone (store : Store) (gid : Nat)
    (rs : List Nat) (h : ∀ x ∈ rs, store.roleLevelMapping gid x = none) :
    mapRolesToLevel store gid rs = ACLevel.EVERYONE := by
  induction rs with
  | nil => rfl
  | cons r rs ih =>
    have hr : store.roleLevelMapping gid r = none := h r (by simp)
    simp only [mapRolesToLevel, hr]
    exact ih (fun y hy => h y (by simp [hy]))

/-- The role-overwrite loop short-circuits on the first role of the list
that has an overwrite entry. -/
theorem roleOverwriteScan_append (store : Store) (gid : Nat) (cmd : String)
    (front : List Nat) (r : Nat) (back : List Nat) (b : Bool)
    (hfront : ∀ x ∈ front, store.roleOverwrite gid x cmd = none)
    (hr : store.roleOverwrite gid r cmd = some b) :
    roleOverwriteScan store gid cmd (front ++ r :: back) =
      some (if b then Decision.Allowed else Decision.NegativeRoleOverwrite r) := by
  induction front with
  | nil => simp [roleOverwriteScan, hr]
  | cons x xs ih =>
    have hx : store.roleOverwrite gid x cmd = none := hfront x (by simp)
    simp only [List.cons_append, roleOverwriteScan, hx]
    exact ih (fun y hy => hfront y (by simp [hy]))

/-! ## Concrete data used by the witnesses -/

/-- A store with no entry in any table. -/
def emptyStore : Store where
  roleLevelMapping := fun _ _ => none
  commandDefault := fun _ _ => none
  userOverwrite := fun _ _ _ => none
  channelOverwrite := fun _ _ _ => none
  roleOverwrite := fun _ _ _ => none

/-- A concrete guild: id 10, owned by user 8. -/
def wGuild : Guild := ⟨10, 8⟩

/-- A store with every overwrite set to deny and a guild default of
`BOT_OWNER` for every command. -/
def denyStore : Store where
  roleLevelMapping := fun _ _ => none
  commandDefault := fun _ _ => some ACLevel.BOT_OWNER
  userOverwrite := fun _ _ _ => some false
  channelOverwrite := fun _ _ _ => some false
  roleOverwrite := fun _ _ _ => some false

/-- A guild context whose author (id 7, roles 1 and 2) is a bot owner. -/
def wBotCtx : Ctx := ⟨[7], some wGuild, ⟨7, [1, 2]⟩, 5, "repeat"⟩

/-- A direct-message context: no guild, author id 7 with no roles. -/
def wDMCtx : Ctx := ⟨[], none, ⟨7, []⟩, 5, "repeat"⟩

/-- Role 1 maps to `MOD` and role 3 maps to `VIP` in guild 10; nothing
else is configured. -/
def c3Store : Store :=
  { emptyStore with
    roleLevelMapping := fun gid rid =>
      if gid = 10 ∧ rid = 1 then some ACLevel.MOD
      else if gid = 10 ∧ rid = 3 then some ACLevel.VIP
      else none }

/-- An actor holding roles 1 (highest), 2, 3 (lowest), in hierarchy
order. -/
def c3Member : Member := ⟨7, [1, 2, 3]⟩

/-! ## Claims -/

/-- C6: when the context has no guild, evaluation returns `Allowed`
immediately, for every store, declared level and command, with no level
resolution, overwrite lookup or level comparison. -/
theorem C6_no_guild_always_allowed (store : Store) (ctx : Ctx)
    (level : ACLevel) (fc : Option String) (hg : ctx.guild = none) :
    acl2_function store ctx level fc = Decision.Allowed := by
  simp [acl2_function, hg]

/-- C6 witness: a DM context is allowed even though the actor would
resolve to `EVERYONE` and the command requires `BOT_OWNER`. -/
theorem C6_no_guild_always_allowed_witness :
    map_member_to_ACLevel emptyStore wDMCtx.botOwnerIds wGuild wDMCtx.author
      = ACLevel.EVERYONE ∧
    acl2_function emptyStore wDMCtx ACLevel.BOT_OWNER none = Decision.Allowed :=
  ⟨by decide, C6_no_guild_always_allowed emptyStore wDMCtx ACLevel.BOT_OWNER none rfl⟩

/-- C2: a bot-owner actor in a guild context resolves to `BOT_OWNER` and
is allowed, whatever the overwrites and the declared or default level. -/
theorem C2_bot_owner_always_allowed (store : Store) (ctx : Ctx) (g : Guild)
    (level : ACLevel) (fc : Option String)
    (hg : ctx.guild = some g) (hb : ctx.author.id ∈ ctx.botOwnerIds) :
    map_member_to_ACLevel store ctx.botOwnerIds g ctx.author = ACLevel.BOT_OWNER ∧
    acl2_function store ctx level fc = Decision.Allowed := by
  have hml := map_member_to_ACLevel_of_bot_owner store ctx.botOwnerIds g ctx.author hb
  exact ⟨hml, by simp [acl2_function, hg, hml]⟩

/-- C2 witness: the bot owner is allowed on a store where every overwrite
denies and the guild default requires `BOT_OWNER`. -/
theorem C2_bot_owner_always_allowed_witness :
    wBotCtx.author.id ∈ wBotCtx.botOwnerIds ∧
    acl2_function denyStore wBotCtx ACLevel.MOD none = Decision.Allowed :=
  ⟨by decide,
    (C2_bot_owner_always_allowed denyStore wBotCtx wGuild ACLevel.MOD none
      rfl (by decide)).2⟩

/-- C3: for a non-owner actor, the resolver scans the role list in
reverse order and the first role of the reversed list carrying an
`ACLevelMappping` entry decides the level. -/
theorem C3_role_mapping_reversed_scan (store : Store) (b : List Nat)
    (g : Guild) (m : Member) (front : List Nat) (r : Nat) (back : List Nat)
    (lvl : ACLevel)
    (hb : m.id ∉ b) (ho : m.id ≠ g.ownerId)
    (hsplit : m.roles.reverse = front ++ r :: back)
    (hfront : ∀ x ∈ front, store.roleLevelMapping g.id x = none)
    (hr : store.roleLevelMapping g.id r = some lvl) :
    map_member_to_ACLevel store b g m = lvl := by
  unfold map_member_to_ACLevel
  rw [if_neg hb, if_neg ho, hsplit]
  exact mapRolesToLevel_append store g.id front r back lvl hfront hr

/-- C3 witness: roles `[R1(high), R2, R3(low)] = [1, 2, 3]` with mappings
`1 → MOD` and `3 → VIP` resolve to `VIP`, not `MOD`. -/
theorem C3_role_mapping_reversed_scan_witness :
    map_member_to_ACLevel c3Store [] wGuild c3Member = ACLevel.VIP ∧
    ACLevel.VIP ≠ ACLevel.MOD :=
  ⟨C3_role_mapping_reversed_scan c3Store [] wGuild c3Member [] 3 [2, 1]
      ACLevel.VIP (by decide) (by decide) rfl
      (fun x hx => absurd hx (List.not_mem_nil x)) (by decide),
    by decide⟩

/-- C8: the resolver is a total function into `ACLevel`, and a non-owner
actor none of whose roles is mapped resolves to the lowest level,
`EVERYONE`. -/
theorem C8_resolver_default_everyone (store : Store) (b : List Nat)
    (g : Guild) (m : Member)
    (hb : m.id ∉ b) (ho : m.id ≠ g.ownerId)
    (hnone : ∀ r ∈ m.roles, store.roleLevelMapping g.id r = none) :
    map_member_to_ACLevel store b g m = ACLevel.EVERYONE := by
  unfold map_member_to_ACLevel
  rw [if_neg hb, if_neg ho]
  exact mapRolesToLevel_eq_everyone store g.id m.roles.reverse
    (fun x hx => hnone x (List.mem_reverse.mp hx))

/-- C8 witness: an unmapped two-role actor resolves to `EVERYONE`. -/
theorem C8_resolver_default_everyone_witness :
    map_member_to_ACLevel emptyStore [] wGuild ⟨7, [1, 2]⟩ = ACLevel.EVERYONE :=
  C8_resolver_default_everyone emptyStore [] wGuild ⟨7, [1, 2]⟩
    (by decide) (by decide) (fun r _ => rfl)

/-- A guild context whose author (id 7, roles 4 then 5) is neither bot
owner nor guild owner. -/
def wCtx : Ctx := ⟨[], some wGuild, ⟨7, [4, 5]⟩, 5, "repeat"⟩

/-- Every user overwrite denies while every channel and role overwrite
allows. -/
def c1Store : Store :=
  { emptyStore with
    userOverwrite := fun _ _ _ => some false
    channelOverwrite := fun _ _ _ => some true
    roleOverwrite := fun _ _ _ => some true }

/-- Every role maps to `MOD`; the user overwrite denies while channel
and role overwrites allow. -/
def c4Store : Store where
  roleLevelMapping := fun _ _ => some ACLevel.MOD
  commandDefault := fun _ _ => none
  userOverwrite := fun _ _ _ => some false
  channelOverwrite := fun _ _ _ => some true
  roleOverwrite := fun _ _ _ => some true

/-- The store mapping every role to `MOD` never role-maps a sentinel
level. -/
theorem c4Store_WF : c4Store.WF := by
  intro g r
  constructor <;> intro h <;> exact absurd (Option.some.inj h) (by decide)

/-- Role 4 has a deny overwrite and role 5 an allow overwrite in guild
10; nothing else is configured. -/
def c7Store : Store :=
  { emptyStore with
    roleOverwrite := fun gid rid _ =>
      if gid = 10 ∧ rid = 4 then some false
      else if gid = 10 ∧ rid = 5 then some true
      else none }

/-- A guild context whose author (id 8, no roles) is the guild owner. -/
def c9Ctx : Ctx := ⟨[], some wGuild, ⟨8, []⟩, 5, "repeat"⟩

/-- C1: once the actor does not resolve to `BOT_OWNER`, the stages are
consulted in the fixed order user overwrite, channel overwrite, role
overwrite, level comparison, and the first stage with a decision is
final: each conjunct fixes only the stages before it, so whatever the
later tables hold cannot change the result. -/
theorem C1_stage_precedence (store : Store) (ctx : Ctx) (g : Guild)
    (level : ACLevel) (hg : ctx.guild = some g)
    (hml : map_member_to_ACLevel store ctx.botOwnerIds g ctx.author ≠ ACLevel.BOT_OWNER) :
    (∀ b, store.userOverwrite g.id ctx.author.id ctx.command = some b →
      acl2_function store ctx level none =
        if b then Decision.Allowed else Decision.NegativeUserOverwrite) ∧
    (∀ b, store.userOverwrite g.id ctx.author.id ctx.command = none →
      store.channelOverwrite g.id ctx.channelId ctx.command = some b →
      acl2_function store ctx level none =
        if b then Decision.Allowed
        else Decision.NegativeChannelOverwrite ctx.channelId) ∧
    (∀ d, store.userOverwrite g.id ctx.author.id ctx.command = none →
      store.channelOverwrite g.id ctx.channelId ctx.command = none →
      roleOverwriteScan store g.id ctx.command ctx.author.roles = some d →
      acl2_function store ctx level none = d) ∧
    (store.userOverwrite g.id ctx.author.id ctx.command = none →
      store.channelOverwrite g.id ctx.channelId ctx.command = none →
      roleOverwriteScan store g.id ctx.command ctx.author.roles = none →
      acl2_function store ctx level none =
        if effectiveLevel store g.id ctx.command level ≤
            map_member_to_ACLevel store ctx.botOwnerIds g ctx.author
        then Decision.Allowed
        else Decision.InsufficientACLevel
          (effectiveLevel store g.id ctx.command level)
          (map_member_to_ACLevel store ctx.botOwnerIds g ctx.author)) := by
  refine ⟨?_, ?_, ?_, ?_⟩ <;> intros <;>
    simp [acl2_function, effectiveLevel, hg, hml, *]

/-- C1 witness: an early user-overwrite deny stands even though the
channel and role overwrites both allow. -/
theorem C1_stage_precedence_witness :
    acl2_function c1Store wCtx ACLevel.EVERYONE none =
      Decision.NegativeUserOverwrite := by
  have h := (C1_stage_precedence c1Store wCtx wGuild ACLevel.EVERYONE rfl
    (by decide)).1 false rfl
  simpa using h

/-- C4: for a non-bot-owner actor in a guild, a user overwrite with
`allow = false` yields exactly `NegativeUserOverwrite`, whatever the
level configuration and the channel and role tables hold. -/
theorem C4_negative_user_overwrite_terminal (store : Store) (ctx : Ctx)
    (g : Guild) (level : ACLevel)
    (hWF : store.WF) (hg : ctx.guild = some g)
    (hb : ctx.author.id ∉ ctx.botOwnerIds)
    (huo : store.userOverwrite g.id ctx.author.id ctx.command = some false) :
    acl2_function store ctx level none = Decision.NegativeUserOverwrite := by
  have hml := map_member_to_ACLevel_ne_bot_owner store hWF ctx.botOwnerIds g
    ctx.author hb
  simp [acl2_function, hg, hml, huo]

/-- C4 witness: the actor resolves to `MOD`, above the required
`EVERYONE`, yet the user deny is final. -/
theorem C4_negative_user_overwrite_terminal_witness :
    map_member_to_ACLevel c4Store wCtx.botOwnerIds wGuild wCtx.author
      = ACLevel.MOD ∧
    acl2_function c4Store wCtx ACLevel.EVERYONE none =
      Decision.NegativeUserOverwrite :=
  ⟨by decide,
    C4_negative_user_overwrite_terminal c4Store wCtx wGuild ACLevel.EVERYONE
      c4Store_WF rfl (by decide) rfl⟩

/-- C5: with no overwrite matching, the result is the level comparison
against the effective level — the guild default when present, else the
declared level — allowing on equality and otherwise denying with
`InsufficientACLevel` carrying required and actual. -/
theorem C5_level_comparison_stage (store : Store) (ctx : Ctx) (g : Guild)
    (level : ACLevel) (hg : ctx.guild = some g)
    (hml : map_member_to_ACLevel store ctx.botOwnerIds g ctx.author ≠ ACLevel.BOT_OWNER)
    (huo : store.userOverwrite g.id ctx.author.id ctx.command = none)
    (hco : store.channelOverwrite g.id ctx.channelId ctx.command = none)
    (hro : roleOverwriteScan store g.id ctx.command ctx.author.roles = none) :
    (acl2_function store ctx level none =
      if effectiveLevel store g.id ctx.command level ≤
          map_member_to_ACLevel store ctx.botOwnerIds g ctx.author
      then Decision.Allowed
      else Decision.InsufficientACLevel
        (effectiveLevel store g.id ctx.command level)
        (map_member_to_ACLevel store ctx.botOwnerIds g ctx.author)) ∧
    (∀ d, store.commandDefault g.id ctx.command = some d →
      effectiveLevel store g.id ctx.command level = d) ∧
    (store.commandDefault g.id ctx.command = none →
      effectiveLevel store g.id ctx.command level = level) := by
  refine ⟨?_, ?_, ?_⟩
  · simp [acl2_function, effectiveLevel, hg, hml, huo, hco, hro]
  · intro d hd; simp [effectiveLevel, hd]
  · intro hd; simp [effectiveLevel, hd]

/-- C5 witness: an `EVERYONE` actor against a required `MOD` with no
overwrites is denied with `InsufficientACLevel MOD EVERYONE`. -/
theorem C5_level_comparison_stage_witness :
    acl2_function emptyStore wCtx ACLevel.MOD none =
      Decision.InsufficientACLevel ACLevel.MOD ACLevel.EVERYONE := by
  have h := (C5_level_comparison_stage emptyStore wCtx wGuild ACLevel.MOD rfl
    (by decide) rfl rfl rfl).1
  rw [h]; decide

/-- C7: the role-overwrite stage scans the actor's roles in natural list
order; the first role with an overwrite entry decides, allow as
`Allowed` and deny as `NegativeRoleOverwrite` carrying that role. -/
theorem C7_role_overwrite_natural_order (store : Store) (ctx : Ctx)
    (g : Guild) (level : ACLevel) (front : List Nat) (r : Nat)
    (back : List Nat) (b : Bool)
    (hg : ctx.guild = some g)
    (hml : map_member_to_ACLevel store ctx.botOwnerIds g ctx.author ≠ ACLevel.BOT_OWNER)
    (huo : store.userOverwrite g.id ctx.author.id ctx.command = none)
    (hco : store.channelOverwrite g.id ctx.channelId ctx.command = none)
    (hsplit : ctx.author.roles = front ++ r :: back)
    (hfront : ∀ x ∈ front, store.roleOverwrite g.id x ctx.command = none)
    (hr : store.roleOverwrite g.id r ctx.command = some b) :
    acl2_function store ctx level none =
      if b then Decision.Allowed else Decision.NegativeRoleOverwrite r := by
  have hscan := roleOverwriteScan_append store g.id ctx.command front r back b
    hfront hr
  rw [← hsplit] at hscan
  simp [acl2_function, hg, hml, huo, hco, hscan]

/-- C7 witness: with roles `[4, 5]`, a deny on role 4 decides even though
role 5 carries an allow overwrite. -/
theorem C7_role_overwrite_natural_order_witness :
    acl2_function c7Store wCtx ACLevel.EVERYONE none =
      Decision.NegativeRoleOverwrite 4 := by
  have h := C7_role_overwrite_natural_order c7Store wCtx wGuild ACLevel.EVERYONE
    [] 4 [5] false rfl (by decide) rfl rfl rfl
    (fun x hx => absurd hx (List.not_mem_nil x)) (by decide)
  simpa using h

/-- C9: a guild owner who is not a bot owner resolves to `GUILD_OWNER`
and still passes through the overwrite stages: a matching deny at the
user, channel or role stage produces the corresponding denial. -/
theorem C9_guild_owner_no_bypass (store : Store) (ctx : Ctx) (g : Guild)
    (level : ACLevel) (hg : ctx.guild = some g)
    (hb : ctx.author.id ∉ ctx.botOwnerIds)
    (ho : ctx.author.id = g.ownerId) :
    map_member_to_ACLevel store ctx.botOwnerIds g ctx.author = ACLevel.GUILD_OWNER ∧
    (store.userOverwrite g.id ctx.author.id ctx.command = some false →
      acl2_function store ctx level none = Decision.NegativeUserOverwrite) ∧
    (store.userOverwrite g.id ctx.author.id ctx.command = none →
      store.channelOverwrite g.id ctx.channelId ctx.command = some false →
      acl2_function store ctx level none =
        Decision.NegativeChannelOverwrite ctx.channelId) ∧
    (∀ r, store.userOverwrite g.id ctx.author.id ctx.command = none →
      store.channelOverwrite g.id ctx.channelId ctx.command = none →
      roleOverwriteScan store g.id ctx.command ctx.author.roles =
        some (Decision.NegativeRoleOverwrite r) →
      acl2_function store ctx level none = Decision.NegativeRoleOverwrite r) := by
  have hml : map_member_to_ACLevel store ctx.botOwnerIds g ctx.author
      = ACLevel.GUILD_OWNER := by
    unfold map_member_to_ACLevel
    rw [if_neg hb, if_pos ho]
  refine ⟨hml, ?_, ?_, ?_⟩
  · intro huo
    simp [acl2_function, hg, hml, huo]
  · intro huo hco
    simp [acl2_function, hg, hml, huo, hco]
  · intro r huo hco hro
    simp [acl2_function, hg, hml, huo, hco, hro]

/-- C9 witness: the guild owner (level `GUILD_OWNER`) is denied by a
user overwrite with `allow = false`. -/
theorem C9_guild_owner_no_bypass_witness :
    map_member_to_ACLevel c4Store c9Ctx.botOwnerIds wGuild c9Ctx.author
      = ACLevel.GUILD_OWNER ∧
    acl2_function c4Store c9Ctx ACLevel.EVERYONE none =
      Decision.NegativeUserOverwrite := by
  have h := C9_guild_owner_no_bypass c4Store c9Ctx wGuild ACLevel.EVERYONE rfl
    (by decide) rfl
  exact ⟨h.1, h.2.1 rfl⟩

/-- C10: within the TTL window the memoized resolver serves the cached
value: a first call at `t1` on a fresh key followed by a call at
`t2 < t1 + 10` with the same actor and guild returns the first value,
even though the store (and the bot-owner set) changed in between. -/
theorem C10_ttl_memoization (s1 s2 : Store) (b1 b2 : List Nat) (g : Guild)
    (m : Member) (t1 t2 : Nat) (cache : LevelCache)
    (hmiss : cacheLookup cache (m.id, g.id) = none)
    (ht : t2 < t1 + levelCacheTTL) :
    (map_member_to_ACLevel_cached s2 b2 g m t2
      (map_member_to_ACLevel_cached s1 b1 g m t1 cache).2).1 =
    (map_member_to_ACLevel_cached s1 b1 g m t1 cache).1 := by
  simp [map_member_to_ACLevel_cached, hmiss, cacheLookup, ht]

/-- C10 witness: the mapping of role 3 changes to `VIP` between the two
calls, yet the second call (5 time-units later) still returns the cached
`EVERYONE`. -/
theorem C10_ttl_memoization_witness :
    (map_member_to_ACLevel_cached c3Store [] wGuild ⟨7, [3]⟩ 5
      (map_member_to_ACLevel_cached emptyStore [] wGuild ⟨7, [3]⟩ 0 []).2).1 =
      ACLevel.EVERYONE ∧
    map_member_to_ACLevel c3Store [] wGuild ⟨7, [3]⟩ = ACLevel.VIP := by
  have h := C10_ttl_memoization emptyStore c3Store [] [] wGuild ⟨7, [3]⟩ 0 5 []
    rfl (by decide)
  constructor
  · rw [h]; decide
  · decide

end PieACL
